import Mathlib

/-!
Shallow embedding of the generation-orchestration core of the
Classical-quotations repository (src/services/geminiService.ts,
src/components/QuoteLibrary.tsx: the QuoteLibrary and VideoAnalyzer
components), together with proofs of the behavioural properties stated in
the specification.

JavaScript strings are modelled as Lean `String`, fractional second counts
(HTMLVideoElement.duration) as `ℚ`, JavaScript arrays as `List`, and the
single asynchronous remote call as an explicit parameter giving the call's
outcome.  Each React event handler becomes a pure transition on an explicit
state record whose fields are the component's `useState` cells.
-/

namespace ClassicalQuotations

/-! ### JavaScript `String.prototype.includes`

`beginsWith l n` is true when `n` is an initial segment of `l`;
`listContains l n` is true when `n` occurs contiguously inside `l`.
`strContains hay needle` models `hay.includes(needle)`. -/

def beginsWith : List Char → List Char → Bool
  | _, [] => true
  | [], _ :: _ => false
  | a :: as, b :: bs => a == b && beginsWith as bs

def listContains : List Char → List Char → Bool
  | _, [] => true
  | [], _ :: _ => false
  | a :: as, b :: bs => beginsWith (a :: as) (b :: bs) || listContains as (b :: bs)

def strContains (hay needle : String) : Bool :=
  listContains hay.toList needle.toList

/-- JavaScript `String.prototype.startsWith`, over the character list. -/
def strStartsWith (s p : String) : Bool :=
  beginsWith s.toList p.toList

def dropWhileWs : List Char → List Char
  | [] => []
  | c :: cs => if c.isWhitespace then dropWhileWs cs else c :: cs

/-- JavaScript `String.prototype.trim`: strip whitespace from both ends. -/
def strTrim (s : String) : String :=
  String.mk ((dropWhileWs ((dropWhileWs s.toList).reverse)).reverse)

/-- JavaScript `String.prototype.toLowerCase`, character by character. -/
def strToLower (s : String) : String :=
  String.mk (s.toList.map Char.toLower)

/-- The mathematical reading of "`needle` is a substring of `hay`". -/
def IsSubstring (needle hay : String) : Prop :=
  ∃ s t, hay.toList = s ++ needle.toList ++ t

/-! ### src/services/geminiService.ts — `generateWithRetry`

The JS function retries when `retries > 0` and the error message contains
`'Rpc failed'` or `'503'`, sleeping 2000 ms before each retry; any other
error is rethrown at once.  The embedding takes the outcome of every
potential attempt as an oracle `attempt : Nat → Except String α` (indexed
by attempt number) and returns the final outcome together with the number
of attempts performed and the list of sleep durations (ms) inserted
between attempts. -/

def isTransientMsg (m : String) : Bool :=
  strContains m "Rpc failed" || strContains m "503"

def generateWithRetry {α : Type} (attempt : Nat → Except String α) :
    Nat → Nat → Except String α × Nat × List Nat
  | idx, 0 =>
    match attempt idx with
    | Except.ok v => (Except.ok v, 1, [])
    | Except.error m => (Except.error m, 1, [])
  | idx, retries + 1 =>
    match attempt idx with
    | Except.ok v => (Except.ok v, 1, [])
    | Except.error m =>
      if isTransientMsg m then
        let rest := generateWithRetry attempt (idx + 1) retries
        (rest.1, rest.2.1 + 1, 2000 :: rest.2.2)
      else (Except.error m, 1, [])

/-! ### src/types.ts — data model -/

inductive AnalysisStatus : Type
  | IDLE
  | UPLOADING
  | ANALYZING
  | COMPLETED
  | ERROR
deriving DecidableEq

inductive DurationOption : Type
  | d10s
  | d15s
  | d25s
  | d60s
  | d3m
  | d5m
deriving DecidableEq

structure MediaFile : Type where
  name : String
  mimeType : String
  size : Nat
deriving DecidableEq

structure AnalysisResult : Type where
  transcription : String
  generatedQuotes : List String
deriving DecidableEq

/-- AnalysisOptions from src/services/geminiService.ts (the second argument
of `analyzeVideoAndGenerateQuotes`). -/
structure AnalysisOptions : Type where
  customInstruction : String
  targetDuration : DurationOption
  avoidQuotes : List String
deriving DecidableEq

/-! ### src/components/VideoAnalyzer — state and event handlers

The `useState` cells of the VideoAnalyzer component.  `videoUrl` models the
object URL as an abstract token; `videoDuration` is the decoded duration in
seconds (0 until metadata has loaded).  The simulated-progress cell is
modelled separately below (`internalProgress` and friends) because it is
driven by its own timer effect. -/

structure AnalyzerState : Type where
  status : AnalysisStatus
  file : Option MediaFile
  videoUrl : Option Nat
  videoDuration : ℚ
  result : Option AnalysisResult
  error : Option String
  customInstruction : String
  targetDuration : DurationOption
  generatedHistory : List String
deriving DecidableEq

/-- Initial state of the component: every cell at its `useState` initial
value. -/
def analyzerInit : AnalyzerState :=
  { status := AnalysisStatus.IDLE
    file := none
    videoUrl := none
    videoDuration := 0
    result := none
    error := none
    customInstruction := ""
    targetDuration := DurationOption.d15s
    generatedHistory := [] }

def invalidFileMsg : String := "请上传有效的视频文件 (MP4, MOV等)"

def metadataOverLimitMsg : String := "视频时长超过限制（最大5分钟）。请上传较短的视频。"

def missingInputMsg : String := "请至少上传一个视频或输入一个主题。"

def overDurationMsg : String := "视频时长超过5分钟，无法进行二创。请更换视频。"

def unknownErrorMsg : String := "分析过程中发生未知错误，请重试。"

def networkFailMsg : String :=
  "网络传输失败：视频文件可能过大，浏览器无法直接处理。请尝试压缩视频或仅使用【自定义主题】进行生成。"

/-- Error-message post-processing in `handleAnalyze`'s catch block:
`err.message || default`, then the transport/size-signature rewrite. -/
def describeError (m : String) : String :=
  let em := if m = "" then unknownErrorMsg else m
  if strContains em "Rpc failed" || strContains em "xhr error" || strContains em "code: 6" then
    networkFailMsg
  else em

/-- The options object handleAnalyze passes to
`analyzeVideoAndGenerateQuotes`: the current topic, the chosen length
bucket, and the accumulated history as the avoid list. -/
def buildOptions (s : AnalyzerState) : AnalysisOptions :=
  { customInstruction := s.customInstruction
    targetDuration := s.targetDuration
    avoidQuotes := s.generatedHistory }

/-- Embedding of `handleAnalyze`.  The remote call's outcome is the
parameter `call`; the returned `Option` is the request actually sent
(`none` when a validation fault blocked submission before any remote
call).  The function returns the state once the handler has fully settled
(the transient `ANALYZING` status set before the await is modelled by
`progressOnEnter` below). -/
def handleAnalyze (s : AnalyzerState) (call : Except String AnalysisResult) :
    AnalyzerState × Option (Option MediaFile × AnalysisOptions) :=
  if s.file = none ∧ strTrim s.customInstruction = "" then
    ({ s with error := some missingInputMsg }, none)
  else if s.file ≠ none ∧ (300 : ℚ) < s.videoDuration then
    ({ s with error := some overDurationMsg }, none)
  else
    match call with
    | Except.ok r =>
      ({ s with status := AnalysisStatus.COMPLETED, error := none, result := some r,
                generatedHistory := s.generatedHistory ++ r.generatedQuotes },
        some (s.file, buildOptions s))
    | Except.error m =>
      ({ s with status := AnalysisStatus.ERROR, error := some (describeError m) },
        some (s.file, buildOptions s))

/-- Embedding of `handleAnotherSet`: calls `handleAnalyze` without touching
`generatedHistory`. -/
def handleAnotherSet (s : AnalyzerState) (call : Except String AnalysisResult) :
    AnalyzerState × Option (Option MediaFile × AnalysisOptions) :=
  handleAnalyze s call

/-- Embedding of `handleFileChange`.  `selected` is `e.target.files?.[0]`;
`newUrl` is the fresh object URL produced by `URL.createObjectURL`. -/
def handleFileChange (s : AnalyzerState) (selected : Option MediaFile) (newUrl : Nat) :
    AnalyzerState :=
  match selected with
  | none => s
  | some f =>
    if ¬ (strStartsWith f.mimeType "video/" = true) then
      { s with error := some invalidFileMsg }
    else
      { s with file := some f, videoUrl := some newUrl, error := none, result := none,
               generatedHistory := [], status := AnalysisStatus.IDLE }

/-- Embedding of `onVideoMetadataLoaded`: stores the decoded duration and
sets the over-limit fault when it exceeds 300 seconds. -/
def onVideoMetadataLoaded (s : AnalyzerState) (duration : ℚ) : AnalyzerState :=
  let s1 := { s with videoDuration := duration }
  if (300 : ℚ) < duration then { s1 with error := some metadataOverLimitMsg } else s1

/-- Embedding of `handleTopicClick` (suggested-topic chip selection). -/
def handleTopicClick (s : AnalyzerState) (topic : String) : AnalyzerState :=
  { s with customInstruction := topic, generatedHistory := [] }

/-- Embedding of the topic text field's onChange handler
(`setCustomInstruction(e.target.value)` and nothing else). -/
def onTopicInput (s : AnalyzerState) (t : String) : AnalyzerState :=
  { s with customInstruction := t }

/-- Embedding of `fullReset`. -/
def fullReset (s : AnalyzerState) : AnalyzerState :=
  { s with file := none, videoUrl := none, result := none,
           status := AnalysisStatus.IDLE, customInstruction := "",
           generatedHistory := [] }

/-! ### Simulated progress effect (VideoAnalyzer, useEffect on `status`)

While `ANALYZING`, an interval fires every 150 ms; on each tick, if the
internal accumulator is below 90 it grows by
`max(0.2, (95 - current) * 0.05 * Math.random())` and the displayed value
is `min(95, current)`.  `rs` is the list of `Math.random()` samples, one
per tick that has fired, most recent last. -/

def progressTick (c : ℚ) (r : ℚ) : ℚ :=
  if c < 90 then c + max (2 / 10) ((95 - c) * (5 / 100) * r) else c

def internalProgress (rs : List ℚ) : ℚ :=
  rs.foldl progressTick 0

def displayedProgress (rs : List ℚ) : ℚ :=
  min 95 (internalProgress rs)

/-- What the status effect writes to the progress cell when the status
changes: 0 on entering `ANALYZING` (before any tick), 100 on `COMPLETED`,
0 on `ERROR` or `IDLE`; nothing for `UPLOADING`. -/
def progressOnEnter : AnalysisStatus → Option ℚ
  | AnalysisStatus.ANALYZING => some 0
  | AnalysisStatus.COMPLETED => some 100
  | AnalysisStatus.ERROR => some 0
  | AnalysisStatus.IDLE => some 0
  | AnalysisStatus.UPLOADING => none

/-! ### src/components/QuoteLibrary.tsx — rotation and search -/

structure Quote : Type where
  id : Nat
  text : String
  category : String
deriving DecidableEq

structure LibState : Type where
  searchTerm : String
  selectedCategory : String
  visibleQuotes : List Quote
  timeRemaining : Nat
deriving DecidableEq

def allCategory : String := "全部"

/-- The pool `refreshQuotes` draws from: the full collection for the
all-category, otherwise the category partition. -/
def categoryPool (quotes : List Quote) (cat : String) : List Quote :=
  if cat ≠ allCategory then quotes.filter (fun q => q.category == cat) else quotes

/-- Embedding of `refreshQuotes`: the randomized comparator sort is
modelled by taking the resulting permutation `shuffled` of the pool as a
parameter; the handler stores the first 8 records and resets the
countdown. -/
def refreshQuotes (shuffled : List Quote) (s : LibState) : LibState :=
  { s with visibleQuotes := shuffled.take 8, timeRemaining := 120 }

/-- Embedding of the `displayQuotes` computed value: a non-empty search
term supersedes the rotated subset with a case-insensitive substring
filter over the full collection. -/
def displayQuotes (allQuotes : List Quote) (s : LibState) : List Quote :=
  if s.searchTerm ≠ "" then
    allQuotes.filter (fun q => strContains (strToLower q.text) (strToLower s.searchTerm))
  else s.visibleQuotes

/-- Embedding of the search input's onChange handler
(`setSearchTerm(e.target.value)` and nothing else). -/
def setSearchTermAction (s : LibState) (t : String) : LibState :=
  { s with searchTerm := t }

/-! ### Concrete inputs used by witnesses and counterexamples -/

def attemptAll503 : Nat → Except String String :=
  fun _ => Except.error "503"

def fileEx : MediaFile :=
  { name := "clip.mp4", mimeType := "video/mp4", size := 1048576 }

def textFileEx : MediaFile :=
  { name := "notes.txt", mimeType := "text/plain", size := 2048 }

def resultEx : AnalysisResult :=
  { transcription := "视频内容摘要", generatedQuotes := ["语录一", "语录二", "语录三"] }

/-- A state with a loaded 301-second video and no topic text. -/
def sOverLimit : AnalyzerState :=
  { analyzerInit with file := some fileEx, videoUrl := some 1, videoDuration := 301 }

/-- A state with a loaded video whose duration is not yet known. -/
def sFileLoaded : AnalyzerState :=
  { analyzerInit with file := some fileEx, videoUrl := some 1 }

/-- A state with accumulated dedup history and an active topic. -/
def sWithHistory : AnalyzerState :=
  { analyzerInit with customInstruction := "房贷压力", generatedHistory := ["旧语录"] }

/-- A topic-only state (no media loaded). -/
def sTopicOnly : AnalyzerState :=
  { analyzerInit with customInstruction := "房贷压力" }

def quotes20 : List Quote :=
  (List.range 20).map (fun i => { id := i, text := "语录", category := allCategory })

def quotes3 : List Quote :=
  [ { id := 1, text := "甲", category := "人性·现实" },
    { id := 2, text := "乙", category := "人性·现实" },
    { id := 3, text := "丙", category := "人性·现实" } ]

def libQuoteA : Quote := { id := 1, text := "Life Is Hard", category := allCategory }

def libQuoteB : Quote := { id := 2, text := "carry on", category := allCategory }

def libStateEmptySearch : LibState :=
  { searchTerm := "", selectedCategory := allCategory,
    visibleQuotes := [libQuoteA], timeRemaining := 120 }

def libStateSearching : LibState :=
  { libStateEmptySearch with searchTerm := "HARD" }

/-! ### Theorems -/

theorem generateWithRetry_spec {α : Type} (attempt : Nat → Except String α) :
    ∀ (retries idx : Nat),
      1 ≤ (generateWithRetry attempt idx retries).2.1 ∧
      (generateWithRetry attempt idx retries).2.1 ≤ retries + 1 ∧
      (generateWithRetry attempt idx retries).2.2.length =
        (generateWithRetry attempt idx retries).2.1 - 1 ∧
      (∀ d ∈ (generateWithRetry attempt idx retries).2.2, d = 2000) ∧
      (∀ k, k + 1 < (generateWithRetry attempt idx retries).2.1 →
        ∃ m, attempt (idx + k) = Except.error m ∧ isTransientMsg m = true) ∧
      (generateWithRetry attempt idx retries).1 =
        attempt (idx + ((generateWithRetry attempt idx retries).2.1 - 1)) := by
  intro retries
  induction retries with
  | zero =>
    intro idx
    cases h : attempt idx with
    | ok v => simp [generateWithRetry, h]
    | error m => simp [generateWithRetry, h]
  | succ r ih =>
    intro idx
    cases h : attempt idx with
    | ok v => simp [generateWithRetry, h]
    | error m =>
      cases ht : isTransientMsg m with
      | false => simp [generateWithRetry, h, ht]
      | true =>
        obtain ⟨h1, h2, h3, h4, h5, h6⟩ := ih (idx + 1)
        have hunfold : generateWithRetry attempt idx (r + 1) =
            ((generateWithRetry attempt (idx + 1) r).1,
              (generateWithRetry attempt (idx + 1) r).2.1 + 1,
              2000 :: (generateWithRetry attempt (idx + 1) r).2.2) := by
          simp [generateWithRetry, h, ht]
        rw [hunfold]
        refine ⟨?_, ?_, ?_, ?_, ?_, ?_⟩
        · show 1 ≤ (generateWithRetry attempt (idx + 1) r).2.1 + 1
          omega
        · show (generateWithRetry attempt (idx + 1) r).2.1 + 1 ≤ r + 1 + 1
          omega
        · show (2000 :: (generateWithRetry attempt (idx + 1) r).2.2).length =
            (generateWithRetry attempt (idx + 1) r).2.1 + 1 - 1
          simp only [List.length_cons, h3]
          omega
        · intro d hd
          rcases List.mem_cons.mp hd with hd | hd
          · exact hd
          · exact h4 d hd
        · intro k hk
          match k with
          | 0 => exact ⟨m, by simpa using h, ht⟩
          | j + 1 =>
            have hj : j + 1 < (generateWithRetry attempt (idx + 1) r).2.1 := by
              have : j + 1 + 1 < (generateWithRetry attempt (idx + 1) r).2.1 + 1 := hk
              omega
            obtain ⟨m', hm', htm'⟩ := h5 j hj
            refine ⟨m', ?_, htm'⟩
            have harg : idx + 1 + j = idx + (j + 1) := by omega
            rw [← harg]
            exact hm'
        · show (generateWithRetry attempt (idx + 1) r).1 =
            attempt (idx + ((generateWithRetry attempt (idx + 1) r).2.1 + 1 - 1))
          rw [h6]
          congr 1
          omega

theorem beginsWith_iff : ∀ (n l : List Char), beginsWith l n = true ↔ ∃ t, l = n ++ t
  | [], l => by
    cases l with
    | nil => simp [beginsWith]
    | cons a as =>
      simp only [beginsWith, List.nil_append, true_iff]
      exact ⟨a :: as, rfl⟩
  | b :: bs, [] => by simp [beginsWith]
  | b :: bs, a :: as => by
    simp only [beginsWith, Bool.and_eq_true, beq_iff_eq, List.cons_append, List.cons.injEq]
    rw [beginsWith_iff bs as]
    constructor
    · rintro ⟨rfl, t, rfl⟩
      exact ⟨t, rfl, rfl⟩
    · rintro ⟨t, rfl, rfl⟩
      exact ⟨rfl, t, rfl⟩

theorem listContains_iff : ∀ (n l : List Char), listContains l n = true ↔ ∃ s t, l = s ++ n ++ t
  | [], l => by
    cases l with
    | nil =>
      simp only [listContains, List.append_nil, true_iff]
      exact ⟨[], [], rfl⟩
    | cons a as =>
      simp only [listContains, List.append_nil, true_iff]
      exact ⟨[], a :: as, rfl⟩
  | b :: bs, [] => by
    simp only [listContains]
    constructor
    · intro h
      exact (Bool.false_ne_true h).elim
    · rintro ⟨s, t, ht⟩
      cases s <;> simp_all
  | b :: bs, a :: as => by
    simp only [listContains, Bool.or_eq_true]
    rw [beginsWith_iff (b :: bs) (a :: as), listContains_iff (b :: bs) as]
    constructor
    · rintro (⟨t, ht⟩ | ⟨s, t, ht⟩)
      · exact ⟨[], t, by simpa using ht⟩
      · exact ⟨a :: s, t, by simp [ht]⟩
    · rintro ⟨s, t, ht⟩
      cases s with
      | nil => exact Or.inl ⟨t, by simpa using ht⟩
      | cons a2 s2 =>
        rw [List.cons_append, List.cons_append, List.cons.injEq] at ht
        exact Or.inr ⟨s2, t, by simpa using ht.2⟩

theorem strContains_iff (hay needle : String) :
    strContains hay needle = true ↔ IsSubstring needle hay :=
  listContains_iff needle.toList hay.toList

/-- C1: for every request through the retrying transport (modelled by the
attempt oracle), at most 3 attempts happen in total, every inter-attempt
delay is exactly 2000 ms (one delay per retry), every non-final attempt
failed with a transient (signature-matching) error — so a fatal error is
propagated immediately with no further attempt — and the final outcome is
exactly the outcome of the last attempt performed. -/
theorem claim_C1 (attempt : Nat → Except String String) :
    (generateWithRetry attempt 0 2).2.1 ≤ 3 ∧
    (generateWithRetry attempt 0 2).2.2.length = (generateWithRetry attempt 0 2).2.1 - 1 ∧
    (∀ d ∈ (generateWithRetry attempt 0 2).2.2, d = 2000) ∧
    (∀ k, k + 1 < (generateWithRetry attempt 0 2).2.1 →
      ∃ m, attempt k = Except.error m ∧ isTransientMsg m = true) ∧
    (generateWithRetry attempt 0 2).1 =
      attempt ((generateWithRetry attempt 0 2).2.1 - 1) := by
  obtain ⟨h1, h2, h3, h4, h5, h6⟩ := generateWithRetry_spec attempt 2 0
  refine ⟨h2, h3, h4, ?_, ?_⟩
  · intro k hk
    simpa using h5 k hk
  · simpa using h6

theorem claim_C1_witness :
    (generateWithRetry attemptAll503 0 2).2.1 ≤ 3 ∧
    (generateWithRetry attemptAll503 0 2).2.2 = [2000, 2000] ∧
    (generateWithRetry attemptAll503 0 2).1 = Except.error "503" :=
  ⟨(claim_C1 attemptAll503).1, by decide, by rfl⟩

/-- What `handleAnalyze` sends: no request at all when a validation fault
fires, otherwise the current media and the options built from the current
state. -/
theorem handleAnalyze_sent (s : AnalyzerState) (call : Except String AnalysisResult) :
    (handleAnalyze s call).2 =
      if (s.file = none ∧ strTrim s.customInstruction = "") ∨
          (s.file ≠ none ∧ (300 : ℚ) < s.videoDuration) then none
      else some (s.file, buildOptions s) := by
  by_cases h1 : s.file = none ∧ strTrim s.customInstruction = ""
  · simp [handleAnalyze, h1]
  · by_cases h2 : s.file ≠ none ∧ (300 : ℚ) < s.videoDuration
    · simp [handleAnalyze, h1, h2]
    · cases call <;> simp [handleAnalyze, h1, h2]

/-- How `handleAnalyze` updates the dedup history: unchanged when a
validation fault blocks submission or when the remote call fails, and the
new quotes appended in order on success. -/
theorem handleAnalyze_history (s : AnalyzerState) (call : Except String AnalysisResult) :
    (handleAnalyze s call).1.generatedHistory =
      if (s.file = none ∧ strTrim s.customInstruction = "") ∨
          (s.file ≠ none ∧ (300 : ℚ) < s.videoDuration) then s.generatedHistory
      else s.generatedHistory ++
        (match call with
          | Except.ok r => r.generatedQuotes
          | Except.error _ => []) := by
  by_cases h1 : s.file = none ∧ strTrim s.customInstruction = ""
  · simp [handleAnalyze, h1]
  · by_cases h2 : s.file ≠ none ∧ (300 : ℚ) < s.videoDuration
    · simp [handleAnalyze, h1, h2]
    · cases call <;> simp [handleAnalyze, h1, h2]

/-- claim_C2_counterexample: the claim as stated is false at a concrete
input: with a loaded 301-second asset the media is present, yet
submission is rejected (no remote call is made) by the over-duration
fault. -/
theorem claim_C2_counterexample :
    sOverLimit.file ≠ none ∧
    (handleAnalyze sOverLimit (Except.ok resultEx)).2 = none ∧
    (handleAnalyze sOverLimit (Except.ok resultEx)).1.error = some overDurationMsg := by
  refine ⟨by decide, by decide, by decide⟩

/-- claim_C2 (amended): submission is rejected with the missing-input
fault (and no remote call made) iff both media and trimmed topic are
absent; submission proceeds iff at least one of the two is present and,
when media is present, its duration does not exceed 300 seconds. -/
theorem claim_C2 (s : AnalyzerState) (call : Except String AnalysisResult) :
    (((handleAnalyze s call).2 = none ∧
        (handleAnalyze s call).1.error = some missingInputMsg) ↔
      (s.file = none ∧ strTrim s.customInstruction = "")) ∧
    ((handleAnalyze s call).2.isSome = true ↔
      ((s.file ≠ none ∨ strTrim s.customInstruction ≠ "") ∧
        (s.file ≠ none → s.videoDuration ≤ 300))) := by
  have hmsg : overDurationMsg ≠ missingInputMsg := by decide
  by_cases h1 : s.file = none ∧ strTrim s.customInstruction = ""
  · simp [handleAnalyze, h1.1, h1.2]
  · by_cases h2 : s.file ≠ none ∧ (300 : ℚ) < s.videoDuration
    · simp only [handleAnalyze, if_neg h1, if_pos h2]
      constructor
      · constructor
        · rintro ⟨-, hm⟩
          rw [Option.some.injEq] at hm
          exact absurd hm hmsg
        · rintro ⟨hnone, -⟩
          exact absurd hnone h2.1
      · simp only [Option.isSome_none]
        constructor
        · intro h
          exact (Bool.false_ne_true h).elim
        · rintro ⟨-, himp⟩
          exact absurd (himp h2.1) (not_le.mpr h2.2)
    · simp only [handleAnalyze, if_neg h1, if_neg h2]
      cases call <;>
      · constructor
        · constructor
          · rintro ⟨h, -⟩
            exact absurd h (by simp)
          · intro hab
            exact absurd hab h1
        · simp only [Option.isSome_some, true_iff]
          constructor
          · by_cases hf : s.file = none
            · exact Or.inr fun ht => h1 ⟨hf, ht⟩
            · exact Or.inl hf
          · intro hf
            by_contra hdur
            exact h2 ⟨hf, not_le.mp hdur⟩

theorem claim_C2_witness :
    (handleAnalyze sTopicOnly (Except.ok resultEx)).2.isSome = true :=
  (claim_C2 sTopicOnly (Except.ok resultEx)).2.mpr
    ⟨Or.inr (by decide), fun h => absurd rfl h⟩

/-- claim_C3: after any `handleAnalyze` settlement, the dedup history is
exactly its prior contents with the newly generated quotes appended at
the end, in order, on success; on a validation fault or a failed call it
is exactly its prior contents — the memory is updated only on success. -/
theorem claim_C3 (s : AnalyzerState) (call : Except String AnalysisResult) :
    (handleAnalyze s call).1.generatedHistory =
      if (s.file = none ∧ strTrim s.customInstruction = "") ∨
          (s.file ≠ none ∧ (300 : ℚ) < s.videoDuration) then s.generatedHistory
      else s.generatedHistory ++
        (match call with
          | Except.ok r => r.generatedQuotes
          | Except.error _ => []) :=
  handleAnalyze_history s call

/-- claim_C4: the dedup history is empty in the initial state, after a new
valid media asset is accepted, after an explicit topic-chip selection and
after a full reset; an "another set" repeat does not clear it but submits
with the accumulated history as the avoid list, and only ever extends the
history. -/
theorem claim_C4 :
    analyzerInit.generatedHistory = [] ∧
    (∀ (s : AnalyzerState) (f : MediaFile) (url : Nat),
      strStartsWith f.mimeType "video/" = true →
        (handleFileChange s (some f) url).generatedHistory = []) ∧
    (∀ (s : AnalyzerState) (t : String), (handleTopicClick s t).generatedHistory = []) ∧
    (∀ s : AnalyzerState, (fullReset s).generatedHistory = []) ∧
    (∀ (s : AnalyzerState) (call : Except String AnalysisResult),
      (handleAnotherSet s call).2 ≠ none →
        (handleAnotherSet s call).2 = some (s.file, buildOptions s) ∧
        (buildOptions s).avoidQuotes = s.generatedHistory) ∧
    (∀ (s : AnalyzerState) (call : Except String AnalysisResult),
      ∃ tail, (handleAnotherSet s call).1.generatedHistory = s.generatedHistory ++ tail) := by
  refine ⟨rfl, ?_, fun s t => rfl, fun s => rfl, ?_, ?_⟩
  · intro s f url h
    simp [handleFileChange, h]
  · intro s call hne
    rw [handleAnotherSet, handleAnalyze_sent] at hne ⊢
    by_cases hb : (s.file = none ∧ strTrim s.customInstruction = "") ∨
        (s.file ≠ none ∧ (300 : ℚ) < s.videoDuration)
    · exact absurd (if_pos hb) hne
    · exact ⟨if_neg hb, rfl⟩
  · intro s call
    rw [handleAnotherSet, handleAnalyze_history]
    by_cases hb : (s.file = none ∧ strTrim s.customInstruction = "") ∨
        (s.file ≠ none ∧ (300 : ℚ) < s.videoDuration)
    · exact ⟨[], by rw [if_pos hb, List.append_nil]⟩
    · refine ⟨match call with
        | Except.ok r => r.generatedQuotes
        | Except.error _ => [], ?_⟩
      rw [if_neg hb]

theorem claim_C4_witness :
    (handleFileChange analyzerInit (some fileEx) 1).generatedHistory = [] ∧
    (handleAnotherSet sWithHistory (Except.error "boom")).2 =
      some (none, buildOptions sWithHistory) ∧
    (buildOptions sWithHistory).avoidQuotes = ["旧语录"] := by
  refine ⟨claim_C4.2.1 analyzerInit fileEx 1 (by decide), ?_, ?_⟩
  · exact (claim_C4.2.2.2.2.1 sWithHistory (Except.error "boom") (by decide)).1
  · exact (claim_C4.2.2.2.2.1 sWithHistory (Except.error "boom") (by decide)).2

/-- claim_C5_counterexample: a free-text edit of the topic input changes
the active topic string but leaves the accumulated dedup memory intact,
refuting the claim that any topic edit resets it. -/
theorem claim_C5_counterexample :
    (onTopicInput sWithHistory "车贷").customInstruction ≠ sWithHistory.customInstruction ∧
    (onTopicInput sWithHistory "车贷").generatedHistory = ["旧语录"] ∧
    (onTopicInput sWithHistory "车贷").generatedHistory ≠ [] := by
  exact ⟨by decide, rfl, by decide⟩

/-- claim_C5 (amended): only an explicit topic-chip selection resets the
dedup memory; a free-text edit of the topic text updates the topic but
leaves the accumulated memory unchanged. -/
theorem claim_C5 (s : AnalyzerState) (t : String) :
    (handleTopicClick s t).generatedHistory = [] ∧
    (handleTopicClick s t).customInstruction = t ∧
    (onTopicInput s t).generatedHistory = s.generatedHistory ∧
    (onTopicInput s t).customInstruction = t :=
  ⟨rfl, rfl, rfl, rfl⟩

/-- Each tick can only increase the internal progress accumulator. -/
theorem progressTick_le (c r : ℚ) : c ≤ progressTick c r := by
  unfold progressTick
  split_ifs with h
  · have h2 : (2 : ℚ) / 10 ≤ max (2 / 10) ((95 - c) * (5 / 100) * r) := le_max_left _ _
    linarith
  · exact le_refl c

/-- claim_C6: the displayed progress starts at 0 when `ANALYZING` begins,
is monotonically non-decreasing from tick to tick, never exceeds 95, is
exactly 100 on `COMPLETED`, and is 0 on `ERROR` and on `IDLE`. -/
theorem claim_C6 :
    displayedProgress [] = 0 ∧
    progressOnEnter AnalysisStatus.ANALYZING = some 0 ∧
    (∀ (rs : List ℚ) (r : ℚ), displayedProgress rs ≤ displayedProgress (rs ++ [r])) ∧
    (∀ rs : List ℚ, displayedProgress rs ≤ 95) ∧
    progressOnEnter AnalysisStatus.COMPLETED = some 100 ∧
    progressOnEnter AnalysisStatus.ERROR = some 0 ∧
    progressOnEnter AnalysisStatus.IDLE = some 0 := by
  refine ⟨?_, rfl, ?_, ?_, rfl, rfl, rfl⟩
  · show min (95 : ℚ) (internalProgress []) = 0
    norm_num [internalProgress]
  · intro rs r
    unfold displayedProgress
    have hle : internalProgress rs ≤ internalProgress (rs ++ [r]) := by
      unfold internalProgress
      rw [List.foldl_append]
      simp only [List.foldl_cons, List.foldl_nil]
      exact progressTick_le _ r
    exact min_le_min le_rfl hle
  · intro rs
    exact min_le_left _ _

/-- claim_C7: for every category, a refresh over any permutation of the
category pool shows an ordered selection of pairwise-distinct records
drawn only from that pool, of size exactly min(8, pool size). -/
theorem claim_C7 (quotes : List Quote) (cat : String) (shuffled : List Quote) (s : LibState)
    (hperm : shuffled.Perm (categoryPool quotes cat)) (hnd : quotes.Nodup) :
    (refreshQuotes shuffled s).visibleQuotes.length =
      min 8 (categoryPool quotes cat).length ∧
    (refreshQuotes shuffled s).visibleQuotes.Nodup ∧
    (∀ q ∈ (refreshQuotes shuffled s).visibleQuotes, q ∈ categoryPool quotes cat) := by
  have hpoolnd : (categoryPool quotes cat).Nodup := by
    unfold categoryPool
    split_ifs with h
    · exact hnd.filter _
    · exact hnd
  have hshufnd : shuffled.Nodup := (hperm.nodup_iff).mpr hpoolnd
  refine ⟨?_, ?_, ?_⟩
  · show (shuffled.take 8).length = _
    rw [List.length_take, hperm.length_eq]
  · exact (List.take_sublist 8 shuffled).nodup hshufnd
  · intro q hq
    exact (hperm.mem_iff).mp (List.mem_of_mem_take hq)

theorem claim_C7_witness :
    (refreshQuotes (categoryPool quotes20 allCategory) libStateEmptySearch).visibleQuotes.length
      = 8 ∧
    (refreshQuotes (categoryPool quotes3 "人性·现实") libStateEmptySearch).visibleQuotes.length
      = 3 := by
  constructor
  · rw [(claim_C7 quotes20 allCategory (categoryPool quotes20 allCategory)
      libStateEmptySearch (List.Perm.refl _) (by decide)).1]
    decide
  · rw [(claim_C7 quotes3 "人性·现实" (categoryPool quotes3 "人性·现实")
      libStateEmptySearch (List.Perm.refl _) (by decide)).1]
    decide

/-- claim_C8: a decoded duration strictly above 300 seconds sets the
over-limit fault and blocks any submission with the loaded asset; a
duration of at most 300 seconds (including the unknown-duration value 0)
sets no fault and leaves submission with the asset unblocked. -/
theorem claim_C8 (s : AnalyzerState) (d : ℚ) :
    ((300 : ℚ) < d →
      (onVideoMetadataLoaded s d).error = some metadataOverLimitMsg ∧
      (s.file ≠ none →
        ∀ call, (handleAnalyze (onVideoMetadataLoaded s d) call).2 = none)) ∧
    (d ≤ 300 →
      (onVideoMetadataLoaded s d).error = s.error ∧
      (s.file ≠ none →
        ∀ call, (handleAnalyze (onVideoMetadataLoaded s d) call).2.isSome = true)) := by
  constructor
  · intro hd
    have hmeta : onVideoMetadataLoaded s d =
        { s with videoDuration := d, error := some metadataOverLimitMsg } := by
      unfold onVideoMetadataLoaded
      rw [if_pos hd]
    refine ⟨by rw [hmeta], ?_⟩
    intro hf call
    rw [hmeta, handleAnalyze_sent]
    exact if_pos (Or.inr ⟨hf, hd⟩)
  · intro hd
    have hmeta : onVideoMetadataLoaded s d = { s with videoDuration := d } := by
      unfold onVideoMetadataLoaded
      rw [if_neg (not_lt.mpr hd)]
    refine ⟨by rw [hmeta], ?_⟩
    intro hf call
    rw [hmeta, handleAnalyze_sent, if_neg]
    · rfl
    · rintro (⟨hnone, -⟩ | ⟨-, hlt⟩)
      · exact hf hnone
      · exact absurd hlt (not_lt.mpr hd)

theorem claim_C8_witness :
    (onVideoMetadataLoaded sFileLoaded 301).error = some metadataOverLimitMsg ∧
    (handleAnalyze (onVideoMetadataLoaded sFileLoaded 301) (Except.ok resultEx)).2 = none ∧
    (handleAnalyze (onVideoMetadataLoaded sFileLoaded 300) (Except.ok resultEx)).2.isSome
      = true := by
  refine ⟨((claim_C8 sFileLoaded 301).1 (by norm_num)).1, ?_, ?_⟩
  · exact ((claim_C8 sFileLoaded 301).1 (by norm_num)).2 (by decide) (Except.ok resultEx)
  · exact ((claim_C8 sFileLoaded 300).2 (le_refl 300)).2 (by decide) (Except.ok resultEx)

/-- claim_C9: with a non-empty search term the displayed set is exactly
the case-insensitive substring matches over the full collection,
independent of the selected category; with an empty term it is the stored
rotated subset; and editing the search term alone rotates nothing (the
stored subset and the countdown are untouched). -/
theorem claim_C9 (allQuotes : List Quote) (s : LibState) :
    (s.searchTerm ≠ "" →
      (∀ q : Quote, q ∈ displayQuotes allQuotes s ↔
        q ∈ allQuotes ∧ IsSubstring (strToLower s.searchTerm) (strToLower q.text)) ∧
      (∀ cat, displayQuotes allQuotes { s with selectedCategory := cat } =
        displayQuotes allQuotes s)) ∧
    (s.searchTerm = "" → displayQuotes allQuotes s = s.visibleQuotes) ∧
    (∀ t, (setSearchTermAction s t).visibleQuotes = s.visibleQuotes ∧
      (setSearchTermAction s t).timeRemaining = s.timeRemaining) := by
  refine ⟨?_, ?_, fun t => ⟨rfl, rfl⟩⟩
  · intro hne
    refine ⟨?_, fun cat => rfl⟩
    intro q
    unfold displayQuotes
    rw [if_pos hne, List.mem_filter, strContains_iff]
  · intro he
    unfold displayQuotes
    rw [if_neg (by simp [he])]

theorem claim_C9_witness :
    displayQuotes [libQuoteA, libQuoteB] libStateEmptySearch = [libQuoteA] ∧
    (libQuoteA ∈ displayQuotes [libQuoteA, libQuoteB] libStateSearching ↔
      libQuoteA ∈ [libQuoteA, libQuoteB] ∧
        IsSubstring (strToLower libStateSearching.searchTerm) (strToLower libQuoteA.text)) := by
  refine ⟨(claim_C9 [libQuoteA, libQuoteB] libStateEmptySearch).2.1 rfl, ?_⟩
  exact ((claim_C9 [libQuoteA, libQuoteB] libStateSearching).1 (by decide)).1 libQuoteA

/-- claim_C10: selecting a file whose mime type does not start with
`video/` sets only the error message; the loaded file, its preview URL,
the result, the dedup history, the analysis status and every other state
cell are left unchanged. -/
theorem claim_C10 (s : AnalyzerState) (f : MediaFile) (url : Nat)
    (h : strStartsWith f.mimeType "video/" = false) :
    handleFileChange s (some f) url = { s with error := some invalidFileMsg } := by
  simp [handleFileChange, h]

theorem claim_C10_witness :
    handleFileChange sTopicOnly (some textFileEx) 7 =
      { sTopicOnly with error := some invalidFileMsg } :=
  claim_C10 sTopicOnly textFileEx 7 (by decide)

end ClassicalQuotations
